import Mathlib

/-!
Shallow embedding of `custom_components/asusrouter/router.py`
(Home Assistant AsusRouter integration).

Datetimes are modelled as `Nat` timestamps; a Python value that is absent or
not a `datetime` instance is modelled as `none`.  MAC addresses are `String`s;
Python falsiness of a MAC (`if not mac`) holds for `None` and for the empty
string.  Opaque descriptive attributes of an identity dictionary are collapsed
into a single `attrs : Nat` field, which suffices to distinguish dictionaries
in structural (value) equality, the only way the code compares them.
-/

/-- An identity dictionary (`dict[str, Any]`) as used by the latest-connected
history: its `MAC` entry, its `CONNECTED` timestamp entry (a `datetime`, or
`none` when absent / not a datetime), and the remaining opaque attributes. -/
structure Identity where
  mac : Option String
  connected : Option Nat
  attrs : Nat
deriving DecidableEq

/-- `ARDevice.connected_device_time`: the `connected` entry when it is a
datetime, otherwise the current time (`datetime.now(timezone.utc)`). -/
def connected_device_time (now : Nat) (e : Identity) : Nat :=
  e.connected.getD now

/-- Python `list.remove(x)`: drop the first element equal to `x`. -/
def removeFirstEq (x : Identity) : List Identity → List Identity
  | [] => []
  | y :: ys => if y = x then ys else y :: removeFirstEq x ys

/-- The removal loop of `ARDevice.connected_device`:
`for device in self._latest_connected_list: if device.get(MAC) == mac:
self._latest_connected_list.remove(device)`.  CPython's list iterator keeps a
position index into the (mutated) list, so the loop is modelled index-based:
the element at position `i` is read, possibly removed via `list.remove`
(first structurally equal element), and the iteration proceeds at `i + 1`.
`fuel` only makes the recursion structural: the loop stops at `i ≥ length`,
`length - i` strictly decreases each step, and the top-level call supplies
`fuel = length`, so fuel is never exhausted before the loop's own exit. -/
def removeLoopFuel (m : String) : Nat → Nat → List Identity → List Identity
  | 0, _, l => l
  | fuel + 1, i, l =>
    if h : i < l.length then
      let device := l.get ⟨i, h⟩
      if device.mac = some m then
        removeLoopFuel m fuel (i + 1) (removeFirstEq device l)
      else
        removeLoopFuel m fuel (i + 1) l
    else l

/-- The removal loop started at position 0. -/
def removeLoopGo (m : String) (i : Nat) (l : List Identity) : List Identity :=
  removeLoopFuel m (l.length - i) i l

/-- Stable insertion by the sort key: the new element goes after every element
whose key is `≤` its own, matching the placement a stable sort gives it. -/
def insertKeyed (now : Nat) (x : Identity) : List Identity → List Identity
  | [] => [x]
  | y :: ys =>
    if connected_device_time now y ≤ connected_device_time now x then
      y :: insertKeyed now x ys
    else x :: y :: ys

/-- `list.sort(key=self.connected_device_time)`: Python's sort is stable, and
any stable sort by the same key computes the same list, so a stable insertion
sort is an exact model. -/
def sortKeyed (now : Nat) (l : List Identity) : List Identity :=
  l.foldl (fun acc x => insertKeyed now x acc) []

/-- The eviction loop: `while len(list) > max: list.pop(0)`. -/
def evict (maxL : Nat) : List Identity → List Identity
  | [] => []
  | x :: xs => if (x :: xs).length ≤ maxL then x :: xs else evict maxL xs

/-- The effect of one `ARDevice.connected_device` call on
`_latest_connected_list` (the list mutations happen even when the final
last-element access raises).  Steps, in source order: falsy-MAC early return;
removal loop; sort by `connected_device_time`; append; eviction loop. -/
def historyStep (maxL now : Nat) (identity : Identity) (l : List Identity) :
    List Identity :=
  match identity.mac with
  | none => l
  | some m =>
    if m = "" then l
    else evict maxL (sortKeyed now (removeLoopGo m 0 l) ++ [identity])

/-- `ARDevice.connected_device` on the state
(`_latest_connected_list`, `_latest_connected`).  `none` models the
`IndexError` raised by `self._latest_connected_list[-1]` when the eviction
loop has emptied the list. -/
def connected_device (maxL now : Nat) (identity : Identity)
    (s : List Identity × Option Nat) : Option (List Identity × Option Nat) :=
  match identity.mac with
  | none => some s
  | some m =>
    if m = "" then some s
    else
      let l := historyStep maxL now identity s.1
      match l.getLast? with
      | none => none
      | some e => some (l, e.connected)

/-- A sequence of `connected_device` calls starting from the initial (empty)
history, tracking the list component. -/
def runHistory (maxL now : Nat) (ids : List Identity) : List Identity :=
  ids.foldl (fun l id => historyStep maxL now id l) []

/-- The history is sorted ascending by `connected_device_time`. -/
def sortedKey (now : Nat) (l : List Identity) : Prop :=
  List.Pairwise
    (fun a b => connected_device_time now a ≤ connected_device_time now b) l

/-- Number of history entries whose `MAC` equals `m`. -/
def countMac (m : String) (l : List Identity) : Nat :=
  (l.filter (fun e => e.mac == some m)).length

/-- At most one history entry per MAC. -/
def macInv (l : List Identity) : Prop :=
  ∀ m : String, countMac m l ≤ 1

/-! ## Clients, AiMesh nodes, sensor handler, router state -/

/-- One client record of a snapshot returned by the bridge
(`bridge.async_get_clients`): whether the snapshot reports the client
connected, its connection type (`none` = `connection is None`,
`some true` = wired, `some false` = wireless), and opaque attributes. -/
structure ClientInfo where
  connection : Option Bool
  connected : Bool
  attrs : Nat
deriving DecidableEq

/-- Held per-client state (`ARClient`): current connected state, last time the
client was seen connected, and its identity dictionary. -/
structure ClientRecord where
  state : Bool
  lastSeen : Nat
  identity : Identity
deriving DecidableEq

/-- Modelled from the spec: `ARClient.update` lives in `client.py`, which is
not among the source files.  Spec §4.1: when a snapshot record is present its
fields are merged into the state and a false→unknown-to-true transition of the
connected boolean invokes `onConnected(identity)` (returned here as the `Bool`
component); when the record is absent and a consider-home window is supplied,
the client stays connected until `now - lastSeen > considerHome`, then flips
to disconnected.  The identity is stamped with the connection time at the
moment of the transition. -/
def clientUpdate (mac : String) (info : Option ClientInfo)
    (considerHome now : Nat) (rec : ClientRecord) : ClientRecord × Bool :=
  match info with
  | some i =>
    let transitioned := i.connected && !rec.state
    let ident : Identity :=
      { mac := some mac
        connected := if transitioned then some now else rec.identity.connected
        attrs := i.attrs }
    ({ state := i.connected
       lastSeen := if i.connected then now else rec.lastSeen
       identity := ident }, transitioned)
  | none =>
    if now - rec.lastSeen > considerHome then
      ({ rec with state := false }, false)
    else (rec, false)

/-- Modelled from the spec: a fresh `ARClient(client_mac)` before its first
update — not yet connected, nothing merged into its identity. -/
def newClientRecord (mac : String) : ClientRecord :=
  { state := false, lastSeen := 0
    identity := { mac := some mac, connected := none, attrs := 0 } }

/-- An AiMesh node's identity dictionary; `node.identity[CONNECTED]` is a
mandatory boolean entry. -/
structure NodeIdentity where
  mac : Option String
  connected : Bool
  attrs : Nat
deriving DecidableEq

/-- One node record of a snapshot returned by `bridge.async_get_aimesh_nodes`. -/
structure NodeInfo where
  connected : Bool
  attrs : Nat
deriving DecidableEq

/-- Held per-node state (`AiMeshNode`). -/
structure NodeRecord where
  identity : NodeIdentity
deriving DecidableEq

/-- Modelled from the spec: `AiMeshNode.update` lives in `aimesh.py`, which is
not among the source files.  Spec §4.1: a present record is merged; an absent
record marks "could not refresh" without flipping the connected state. -/
def nodeUpdate (mac : String) (info : Option NodeInfo) (rec : NodeRecord) :
    NodeRecord :=
  match info with
  | some i =>
    { identity := { mac := some mac, connected := i.connected, attrs := i.attrs } }
  | none => rec

/-- Modelled from the spec: a fresh `AiMeshNode(node_mac)` before its first
update. -/
def newNodeRecord (mac : String) : NodeRecord :=
  { identity := { mac := some mac, connected := false, attrs := 0 } }

/-- `ARSensorHandler`'s stored (published) sensor values. -/
structure ARSensorHandler where
  clients_number : Nat
  clients_list : List Identity
  latest_connected : Option Nat
  latest_connected_list : List Identity
  aimesh_number : Nat
  aimesh_list : List NodeIdentity
deriving DecidableEq

/-- `ARSensorHandler.update_clients`: store the new values and report `true`
only when some component differs (Python `==` on the stored values, i.e.
structural equality); otherwise report `false` and store nothing. -/
def ARSensorHandler.update_clients (h : ARSensorHandler) (clients_number : Nat)
    (clients_list : List Identity) (latest_connected : Option Nat)
    (latest_connected_list : List Identity) : Bool × ARSensorHandler :=
  if h.clients_number = clients_number ∧ h.clients_list = clients_list ∧
      h.latest_connected = latest_connected ∧
      h.latest_connected_list = latest_connected_list then
    (false, h)
  else
    (true,
     { h with
        clients_number := clients_number, clients_list := clients_list
        latest_connected := latest_connected
        latest_connected_list := latest_connected_list })

/-- `ARSensorHandler.update_aimesh`: same contract for the AiMesh values. -/
def ARSensorHandler.update_aimesh (h : ARSensorHandler) (aimesh_number : Nat)
    (aimesh_list : List NodeIdentity) : Bool × ARSensorHandler :=
  if h.aimesh_number = aimesh_number ∧ h.aimesh_list = aimesh_list then
    (false, h)
  else
    (true, { h with aimesh_number := aimesh_number, aimesh_list := aimesh_list })

/-- The mutable `ARDevice` state touched by the reconciliation passes.  The
maps are association lists in insertion order, matching Python dict order. -/
structure RouterState where
  clients : List (String × ClientRecord)
  aimesh : List (String × NodeRecord)
  clients_number : Nat
  clients_list : List Identity
  aimesh_number : Nat
  aimesh_list : List NodeIdentity
  latest_connected : Option Nat
  latest_connected_list : List Identity
  connect_error : Bool
  handler : ARSensorHandler
deriving DecidableEq

/-- The `ARDevice.__init__` values of that state (empty maps, zero counts,
no history, no error, handler as `ARSensorHandler.__init__` leaves it). -/
def emptyRouterState : RouterState :=
  { clients := [], aimesh := [], clients_number := 0, clients_list := []
    aimesh_number := 0, aimesh_list := [], latest_connected := none
    latest_connected_list := [], connect_error := false
    handler := ⟨0, [], none, [], 0, []⟩ }

/-- Python `dict.pop(key, None)`: the looked-up value (if any) and the
mapping without that key. -/
def popKey {α : Type} (m : String) :
    List (String × α) → Option α × List (String × α)
  | [] => (none, [])
  | (k, v) :: rest =>
    if k = m then (some v, rest)
    else
      let r := popKey m rest
      (r.1, (k, v) :: r.2)

/-- The "Update known clients" loop of `ARDevice.update_devices`: every
already-tracked client is updated with the snapshot entry popped for its MAC
(or with `none`); a client whose update reports a connect transition invokes
`connected_device` on the history state.  `none` propagates the `IndexError`
`connected_device` can raise. -/
def updateExistingClients (considerHome maxL now : Nat) :
    List (String × ClientRecord) → List (String × ClientInfo) →
    List Identity × Option Nat →
    Option (List (String × ClientRecord) × List (String × ClientInfo) ×
      (List Identity × Option Nat))
  | [], snap, hist => some ([], snap, hist)
  | (mac, rec) :: rest, snap, hist =>
    let pk := popKey mac snap
    let ru := clientUpdate mac pk.1 considerHome now rec
    let histNext :=
      if ru.2 then connected_device maxL now ru.1.identity hist else some hist
    match histNext with
    | none => none
    | some hist' =>
      match updateExistingClients considerHome maxL now rest pk.2 hist' with
      | none => none
      | some (out, snapF, histF) => some ((mac, ru.1) :: out, snapF, histF)

/-- The "Add new clients" loop of `ARDevice.update_devices`: every snapshot
entry left after the known-client pops becomes a fresh `ARClient`, is updated
with its snapshot record (no consider-home argument is passed there; the
record is present, so the window is unused), and is appended to the map. -/
def addNewClients (considerHome maxL now : Nat) :
    List (String × ClientInfo) → List Identity × Option Nat →
    Option (List (String × ClientRecord) × (List Identity × Option Nat))
  | [], hist => some ([], hist)
  | (mac, info) :: rest, hist =>
    let ru := clientUpdate mac (some info) considerHome now (newClientRecord mac)
    let histNext :=
      if ru.2 then connected_device maxL now ru.1.identity hist else some hist
    match histNext with
    | none => none
    | some hist' =>
      match addNewClients considerHome maxL now rest hist' with
      | none => none
      | some (out, histF) => some ((mac, ru.1) :: out, histF)

/-- The "Connected clients sensor" loop: count the clients whose `state` is
true and collect their identities, in map order. -/
def clientsAggregate (l : List (String × ClientRecord)) : Nat × List Identity :=
  l.foldl
    (fun acc kv =>
      if kv.2.state then (acc.1 + 1, acc.2 ++ [kv.2.identity]) else acc)
    (0, [])

/-- The "AiMesh sensors" loop: the count increments only for nodes whose
identity reports connected, but the `append` to the list sits outside that
`if` in the source, so every node's identity is collected. -/
def aimeshAggregate (l : List (String × NodeRecord)) : Nat × List NodeIdentity :=
  l.foldl
    (fun acc kv =>
      ((if kv.2.identity.connected then acc.1 + 1 else acc.1),
       acc.2 ++ [kv.2.identity]))
    (0, [])

/-- `ARDevice._update_unpolled_sensors`: push the router's aggregates into the
sensor handler (AiMesh first, then devices, as in the source) and request a
coordinator refresh for each handler update that reported a change.  The
`has*` flags model which sensor types are present in `_sensor_coordinator`.
The handler is assumed initialised (the post-setup situation); before
initialisation the call returns without effect. -/
def updateUnpolledSensors (hasAimesh hasDevices : Bool) (st : RouterState) :
    RouterState × Bool × Bool :=
  let r1 :=
    if hasAimesh then st.handler.update_aimesh st.aimesh_number st.aimesh_list
    else (false, st.handler)
  let r2 :=
    if hasDevices then
      r1.2.update_clients st.clients_number st.clients_list
        st.latest_connected st.latest_connected_list
    else (false, r1.2)
  ({ st with handler := r2.2 }, r1.1, r2.1)

/-- Observable outcomes of one `ARDevice.update_devices` pass. -/
structure DevOut where
  errorLogged : Bool
  recoveryLogged : Bool
  newClientIdentities : List Identity
  dispatchedUpdate : Bool
  dispatchedNew : Bool
  aimeshRefreshed : Bool
  devicesRefreshed : Bool
deriving DecidableEq

/-- `ARDevice.update_devices`.  `fetch` is the outcome of
`bridge.async_get_clients` (`.error` = `UpdateFailed` raised).  The
`trackDevices` option is read by the source only to choose between the
"Device tracking is disabled" and "... enabled" debug lines; the pass then
proceeds identically in both cases, so the parameter is unused here.
`mediaBridge` applies the wired-only snapshot filter of Media-bridge mode.
`none` models the `IndexError` `connected_device` can raise mid-pass. -/
def update_devices (_trackDevices mediaBridge hasAimesh hasDevices : Bool)
    (considerHome maxL now : Nat)
    (fetch : Except Unit (List (String × ClientInfo)))
    (st : RouterState) : Option (RouterState × DevOut) :=
  match fetch with
  | .error _ =>
    some ({ st with connect_error := true },
      { errorLogged := !st.connect_error, recoveryLogged := false
        newClientIdentities := [], dispatchedUpdate := false
        dispatchedNew := false, aimeshRefreshed := false
        devicesRefreshed := false })
  | .ok apiClients =>
    let apiClients :=
      if mediaBridge then
        apiClients.filter (fun kv => kv.2.connection == some true)
      else apiClients
    match
      updateExistingClients considerHome maxL now st.clients apiClients
        (st.latest_connected_list, st.latest_connected) with
    | none => none
    | some (updated, remaining, hist1) =>
      match addNewClients considerHome maxL now remaining hist1 with
      | none => none
      | some (newRecs, hist2) =>
        let clients' := updated ++ newRecs
        let st1 : RouterState :=
          { st with
              clients := clients'
              clients_number := (clientsAggregate clients').1
              clients_list := (clientsAggregate clients').2
              latest_connected_list := hist2.1
              latest_connected := hist2.2
              connect_error := false }
        let r := updateUnpolledSensors hasAimesh hasDevices st1
        some (r.1,
          { errorLogged := false, recoveryLogged := st.connect_error
            newClientIdentities := newRecs.map (fun kv => kv.2.identity)
            dispatchedUpdate := true, dispatchedNew := !newRecs.isEmpty
            aimeshRefreshed := r.2.1, devicesRefreshed := r.2.2 })

/-- Observable outcomes of one `ARDevice.update_nodes` pass. -/
structure NodeOut where
  errorLogged : Bool
  newNodeIdentities : List NodeIdentity
  dispatchedUpdate : Bool
  dispatchedNew : Bool
deriving DecidableEq

/-- The "Update existing nodes" loop of `ARDevice.update_nodes`. -/
def updateExistingNodes :
    List (String × NodeRecord) → List (String × NodeInfo) →
    List (String × NodeRecord) × List (String × NodeInfo)
  | [], snap => ([], snap)
  | (mac, rec) :: rest, snap =>
    let pk := popKey mac snap
    let rec' := nodeUpdate mac pk.1 rec
    let r := updateExistingNodes rest pk.2
    ((mac, rec') :: r.1, r.2)

/-- The "Add new nodes" loop of `ARDevice.update_nodes`. -/
def addNewNodes : List (String × NodeInfo) → List (String × NodeRecord)
  | [] => []
  | (mac, info) :: rest =>
    (mac, nodeUpdate mac (some info) (newNodeRecord mac)) :: addNewNodes rest

/-- `ARDevice.update_nodes`.  On `UpdateFailed` the connect-error flag is set
(logging the error only when it was clear) and the pass aborts; on success the
pass does not touch the flag — unlike `update_devices`, it has no
"Reconnected" branch.  It never calls `_update_unpolled_sensors` and never
touches the sensor handler. -/
def update_nodes (fetch : Except Unit (List (String × NodeInfo)))
    (st : RouterState) : RouterState × NodeOut :=
  match fetch with
  | .error _ =>
    ({ st with connect_error := true },
     { errorLogged := !st.connect_error, newNodeIdentities := []
       dispatchedUpdate := false, dispatchedNew := false })
  | .ok aimesh =>
    let r := updateExistingNodes st.aimesh aimesh
    let newRecs := addNewNodes r.2
    let aimesh' := r.1 ++ newRecs
    ({ st with
        aimesh := aimesh'
        aimesh_number := (aimeshAggregate aimesh').1
        aimesh_list := (aimeshAggregate aimesh').2 },
     { errorLogged := false
       newNodeIdentities := newRecs.map (fun kv => kv.2.identity)
       dispatchedUpdate := true, dispatchedNew := !newRecs.isEmpty })

/-- The map mutation of `ARDevice.remove_trackers`: each MAC resolved from the
entity registry is popped from the client map when present (then
`update_devices` runs again, modelled separately). -/
def remove_trackers (macs : List String)
    (clients : List (String × ClientRecord)) : List (String × ClientRecord) :=
  macs.foldl (fun acc m => (popKey m acc).2) clients

/-- Pass kinds for sequences of reconciliation passes. -/
inductive PassKind where
  | device
  | node
deriving DecidableEq

/-- One failing pass (fetch raises `UpdateFailed`) of the given kind; returns
the new state and whether the connect error was logged.  The remaining
configuration parameters are irrelevant on the error path and fixed. -/
def failStep (k : PassKind) (st : RouterState) : RouterState × Bool :=
  match k with
  | .device =>
    match update_devices false false false false 0 0 0 (.error ()) st with
    | some (st', o) => (st', o.errorLogged)
    | none => (st, false)
  | .node =>
    let r := update_nodes (.error ()) st
    (r.1, r.2.errorLogged)

/-- A consecutive streak of failing passes; returns the final state and how
many times the connect error was logged. -/
def runFailing : List PassKind → RouterState → RouterState × Nat
  | [], st => (st, 0)
  | k :: ks, st =>
    let r := failStep k st
    let rest := runFailing ks r.1
    (rest.1, (if r.2 then 1 else 0) + rest.2)

/-- The recomputed client aggregate tuple a pass hands to
`ARSensorHandler.update_clients`. -/
def devTuple (st : RouterState) :
    Nat × List Identity × Option Nat × List Identity :=
  (st.clients_number, st.clients_list, st.latest_connected,
   st.latest_connected_list)

/-- The previously published client tuple stored in the handler. -/
def pubDevTuple (h : ARSensorHandler) :
    Nat × List Identity × Option Nat × List Identity :=
  (h.clients_number, h.clients_list, h.latest_connected,
   h.latest_connected_list)

/-- The recomputed AiMesh aggregate tuple a pass hands to
`ARSensorHandler.update_aimesh`. -/
def aimTuple (st : RouterState) : Nat × List NodeIdentity :=
  (st.aimesh_number, st.aimesh_list)

/-- The previously published AiMesh tuple stored in the handler. -/
def pubAimTuple (h : ARSensorHandler) : Nat × List NodeIdentity :=
  (h.aimesh_number, h.aimesh_list)

/-- Map keys, in insertion order. -/
def keysOf {α : Type} (l : List (String × α)) : List String :=
  l.map Prod.fst

/-! ## Helper lemmas: sorting -/

lemma mem_insertKeyed (now : Nat) (x a : Identity) (l : List Identity) :
    a ∈ insertKeyed now x l ↔ a = x ∨ a ∈ l := by
  induction l with
  | nil => simp [insertKeyed]
  | cons y ys ih =>
    simp only [insertKeyed]
    split
    · simp only [List.mem_cons, ih]
      tauto
    · simp only [List.mem_cons]

lemma insertKeyed_sorted (now : Nat) (x : Identity) (l : List Identity)
    (h : sortedKey now l) : sortedKey now (insertKeyed now x l) := by
  induction l with
  | nil => simp [insertKeyed, sortedKey]
  | cons y ys ih =>
    rw [sortedKey, List.pairwise_cons] at h
    simp only [insertKeyed]
    split
    · rw [sortedKey, List.pairwise_cons]
      refine ⟨?_, ih h.2⟩
      intro a ha
      rcases (mem_insertKeyed now x a ys).mp ha with rfl | ha'
      · assumption
      · exact h.1 a ha'
    · rw [sortedKey, List.pairwise_cons]
      refine ⟨?_, List.pairwise_cons.mpr h⟩
      intro a ha
      have hxy : connected_device_time now x ≤ connected_device_time now y := by
        omega
      rcases List.mem_cons.mp ha with rfl | ha'
      · exact hxy
      · exact le_trans hxy (h.1 a ha')

lemma sortKeyed_sorted_aux (now : Nat) (l : List Identity) :
    ∀ acc : List Identity, sortedKey now acc →
      sortedKey now (l.foldl (fun acc x => insertKeyed now x acc) acc) := by
  induction l with
  | nil => intro acc h; simpa using h
  | cons x xs ih =>
    intro acc h
    simpa using ih (insertKeyed now x acc) (insertKeyed_sorted now x acc h)

lemma sortKeyed_sorted (now : Nat) (l : List Identity) :
    sortedKey now (sortKeyed now l) :=
  sortKeyed_sorted_aux now l [] (by simp [sortedKey])

lemma insertKeyed_perm (now : Nat) (x : Identity) (l : List Identity) :
    List.Perm (insertKeyed now x l) (x :: l) := by
  induction l with
  | nil => simp [insertKeyed]
  | cons y ys ih =>
    simp only [insertKeyed]
    split
    · exact (ih.cons y).trans (List.Perm.swap x y ys)
    · exact List.Perm.refl _

lemma sortKeyed_perm_aux (now : Nat) (l : List Identity) :
    ∀ acc : List Identity,
      List.Perm (l.foldl (fun acc x => insertKeyed now x acc) acc) (l ++ acc) := by
  induction l with
  | nil => intro acc; simp
  | cons x xs ih =>
    intro acc
    simp only [List.foldl_cons]
    refine ((ih (insertKeyed now x acc)).trans ?_)
    refine (((insertKeyed_perm now x acc).append_left xs).trans ?_)
    exact List.perm_middle

lemma sortKeyed_perm (now : Nat) (l : List Identity) :
    List.Perm (sortKeyed now l) l := by
  simpa using sortKeyed_perm_aux now l []

/-! ## Helper lemmas: eviction -/

lemma evict_sublist (maxL : Nat) (l : List Identity) :
    List.Sublist (evict maxL l) l := by
  induction l with
  | nil => simp [evict]
  | cons x xs ih =>
    simp only [evict]
    split
    · exact List.Sublist.refl _
    · exact ih.cons x

lemma evict_eq_drop (maxL : Nat) (l : List Identity) :
    evict maxL l = l.drop (l.length - maxL) := by
  induction l with
  | nil => simp [evict]
  | cons x xs ih =>
    simp only [evict, List.length_cons]
    split
    · rename_i hle
      have h0 : xs.length + 1 - maxL = 0 := by omega
      rw [h0, List.drop_zero]
    · rename_i hgt
      have h1 : xs.length + 1 - maxL = (xs.length - maxL) + 1 := by omega
      rw [h1, List.drop_succ_cons, ih]

lemma evict_length (maxL : Nat) (l : List Identity) :
    (evict maxL l).length = min l.length maxL := by
  rw [evict_eq_drop, List.length_drop]
  omega

lemma evict_getLast? (maxL : Nat) (l : List Identity) (h1 : 1 ≤ maxL)
    (h2 : l ≠ []) : (evict maxL l).getLast? = l.getLast? := by
  induction l with
  | nil => simp at h2
  | cons x xs ih =>
    simp only [evict]
    split
    · rfl
    · rename_i hgt
      have hxs : xs ≠ [] := by
        intro h
        subst h
        simp at hgt
        omega
      rw [ih hxs]
      match xs, hxs with
      | y :: ys, _ => rw [List.getLast?_cons_cons]

lemma evict_sorted (now maxL : Nat) (l : List Identity)
    (h : sortedKey now l) : sortedKey now (evict maxL l) :=
  List.Pairwise.sublist (evict_sublist maxL l) h

lemma sorted_dropLast_evict_append (now maxL : Nat) (x : Identity)
    (l : List Identity) (h : sortedKey now l) :
    sortedKey now ((evict maxL (l ++ [x])).dropLast) := by
  induction l with
  | nil =>
    simp only [List.nil_append, evict]
    split
    · simp [sortedKey]
    · simp [evict, sortedKey]
  | cons y ys ih =>
    have hcons : (y :: ys) ++ [x] = y :: (ys ++ [x]) := rfl
    rw [hcons]
    simp only [evict]
    split
    · rw [← hcons, List.dropLast_concat]
      exact h
    · exact ih ((List.pairwise_cons.mp h).2)

/-! ## Helper lemmas: MAC counting and the removal loop -/

lemma countMac_cons (m : String) (x : Identity) (l : List Identity) :
    countMac m (x :: l) =
      (if x.mac = some m then 1 else 0) + countMac m l := by
  by_cases h : x.mac = some m
  · simp [countMac, List.filter_cons, h]
    omega
  · simp [countMac, List.filter_cons, h]

lemma countMac_append (m : String) (l1 l2 : List Identity) :
    countMac m (l1 ++ l2) = countMac m l1 + countMac m l2 := by
  simp [countMac, List.filter_append]

lemma countMac_sublist (m : String) {l1 l2 : List Identity}
    (h : List.Sublist l1 l2) : countMac m l1 ≤ countMac m l2 :=
  List.Sublist.length_le (h.filter _)

lemma countMac_perm (m : String) {l1 l2 : List Identity}
    (h : List.Perm l1 l2) : countMac m l1 = countMac m l2 :=
  List.Perm.length_eq (h.filter _)

lemma countMac_eq_zero_of_no_match (m : String) (l : List Identity)
    (h : ∀ x ∈ l, x.mac ≠ some m) : countMac m l = 0 := by
  induction l with
  | nil => simp [countMac]
  | cons y ys ih =>
    rw [countMac_cons]
    have hy := h y (List.mem_cons_self y ys)
    have h2 := ih (fun x hx => h x (List.mem_cons_of_mem y hx))
    simp [hy, h2]

lemma countMac_pos_of_match (m : String) {x : Identity} {l : List Identity}
    (hx : x ∈ l) (hm : x.mac = some m) : 1 ≤ countMac m l := by
  induction l with
  | nil => simp at hx
  | cons y ys ih =>
    rw [countMac_cons]
    rcases List.mem_cons.mp hx with rfl | hx'
    · simp [hm]
    · have := ih hx'
      omega

lemma removeFirstEq_sublist (x : Identity) (l : List Identity) :
    List.Sublist (removeFirstEq x l) l := by
  induction l with
  | nil => simp [removeFirstEq]
  | cons y ys ih =>
    simp only [removeFirstEq]
    split
    · exact (List.sublist_cons_self y ys)
    · exact ih.cons₂ y

lemma removeFirstEq_count_of_match (m : String) {x : Identity}
    {l : List Identity} (hx : x ∈ l) (hm : x.mac = some m) :
    countMac m (removeFirstEq x l) + 1 = countMac m l := by
  induction l with
  | nil => simp at hx
  | cons y ys ih =>
    simp only [removeFirstEq]
    split
    · rename_i hyx
      subst hyx
      rw [countMac_cons, if_pos hm]
      omega
    · rename_i hyx
      have hx' : x ∈ ys := by
        rcases List.mem_cons.mp hx with rfl | h'
        · exact absurd rfl hyx
        · exact h'
      rw [countMac_cons, countMac_cons]
      have := ih hx'
      omega

lemma removeLoopFuel_sublist (m : String) (fuel : Nat) :
    ∀ (i : Nat) (l : List Identity),
      List.Sublist (removeLoopFuel m fuel i l) l := by
  induction fuel with
  | zero => intro i l; simp [removeLoopFuel]
  | succ fuel ih =>
    intro i l
    simp only [removeLoopFuel]
    split
    · rename_i h
      split
      · exact (ih (i + 1) _).trans (removeFirstEq_sublist _ l)
      · exact ih (i + 1) l
    · exact List.Sublist.refl l

lemma removeLoopFuel_of_count_zero (m : String) (fuel : Nat) :
    ∀ (i : Nat) (l : List Identity), countMac m l = 0 →
      removeLoopFuel m fuel i l = l := by
  induction fuel with
  | zero => intro i l _; rfl
  | succ fuel ih =>
    intro i l hc
    simp only [removeLoopFuel]
    split
    · rename_i h
      split
      · rename_i hmac
        exfalso
        have := countMac_pos_of_match m (List.get_mem l i h) hmac
        omega
      · exact ih (i + 1) l hc
    · rfl

lemma removeLoopFuel_count_one (m : String) (fuel : Nat) :
    ∀ (i : Nat) (l : List Identity), l.length - i ≤ fuel →
      countMac m l = 1 →
      (∀ (j : Nat) (hj : j < l.length), j < i →
        (l.get ⟨j, hj⟩).mac ≠ some m) →
      countMac m (removeLoopFuel m fuel i l) = 0 := by
  induction fuel with
  | zero =>
    intro i l hfuel hc hbefore
    exfalso
    have hled : l.length ≤ i := by omega
    have : countMac m l = 0 := by
      apply countMac_eq_zero_of_no_match
      intro x hx
      rcases List.mem_iff_getElem.mp hx with ⟨j, hj, rfl⟩
      exact hbefore j hj (lt_of_lt_of_le hj hled)
    omega
  | succ fuel ih =>
    intro i l hfuel hc hbefore
    simp only [removeLoopFuel]
    split
    · rename_i h
      split
      · rename_i hmac
        have hrem :
            countMac m (removeFirstEq (l.get ⟨i, h⟩) l) + 1 = countMac m l :=
          removeFirstEq_count_of_match m (List.get_mem l i h) hmac
        have hzero : countMac m (removeFirstEq (l.get ⟨i, h⟩) l) = 0 := by
          omega
        rw [removeLoopFuel_of_count_zero m fuel (i + 1) _ hzero]
        exact hzero
      · rename_i hmac
        apply ih (i + 1) l (by omega) hc
        intro j hj hji
        rcases Nat.lt_succ_iff_lt_or_eq.mp hji with hji' | rfl
        · exact hbefore j hj hji'
        · exact hmac
    · rename_i h
      exfalso
      have hled : l.length ≤ i := by omega
      have : countMac m l = 0 := by
        apply countMac_eq_zero_of_no_match
        intro x hx
        rcases List.mem_iff_getElem.mp hx with ⟨j, hj, rfl⟩
        exact hbefore j hj (lt_of_lt_of_le hj hled)
      omega

lemma removeLoopGo_count (m : String) (l : List Identity)
    (h : countMac m l ≤ 1) : countMac m (removeLoopGo m 0 l) = 0 := by
  rcases Nat.le_one_iff_eq_zero_or_eq_one.mp h with h0 | h1
  · rw [removeLoopGo, removeLoopFuel_of_count_zero m _ 0 l h0]
    exact h0
  · exact removeLoopFuel_count_one m (l.length - 0) 0 l (le_refl _) h1
      (fun j hj hji => absurd hji (Nat.not_lt_zero j))

lemma removeLoopGo_sublist (m : String) (i : Nat) (l : List Identity) :
    List.Sublist (removeLoopGo m i l) l :=
  removeLoopFuel_sublist m (l.length - i) i l

/-! ## Helper lemmas: one history step -/

lemma historyStep_eq (maxL now : Nat) (identity : Identity) (m : String)
    (l : List Identity) (hm : identity.mac = some m) (hne : m ≠ "") :
    historyStep maxL now identity l =
      evict maxL (sortKeyed now (removeLoopGo m 0 l) ++ [identity]) := by
  simp [historyStep, hm, hne]

lemma mem_of_getLast?_eq_some {l : List Identity} {a : Identity}
    (h : l.getLast? = some a) : a ∈ l := by
  induction l with
  | nil => simp at h
  | cons x xs ih =>
    match xs, ih with
    | [], _ =>
      simp only [List.getLast?_singleton, Option.some.injEq] at h
      simp [h]
    | y :: ys, ih =>
      rw [List.getLast?_cons_cons] at h
      exact List.mem_cons_of_mem x (ih h)

lemma historyStep_countMac_sort_zero (m : String) (now : Nat)
    (l : List Identity) (hc : countMac m l ≤ 1) :
    countMac m (sortKeyed now (removeLoopGo m 0 l)) = 0 := by
  rw [countMac_perm m (sortKeyed_perm now (removeLoopGo m 0 l))]
  exact removeLoopGo_count m l hc

lemma historyStep_countMac_self (maxL now : Nat) (identity : Identity)
    (m : String) (l : List Identity) (hm : identity.mac = some m)
    (hne : m ≠ "") (hmax : 1 ≤ maxL) (hc : countMac m l ≤ 1) :
    countMac m (historyStep maxL now identity l) = 1 ∧
      (historyStep maxL now identity l).getLast? = some identity := by
  rw [historyStep_eq maxL now identity m l hm hne]
  have hs0 := historyStep_countMac_sort_zero m now l hc
  have htne : sortKeyed now (removeLoopGo m 0 l) ++ [identity] ≠ [] := by
    simp
  have hlast :
      (sortKeyed now (removeLoopGo m 0 l) ++ [identity]).getLast? =
        some identity := by
    simp
  have hevlast := evict_getLast? maxL _ hmax htne
  rw [hlast] at hevlast
  constructor
  · have hle :
        countMac m (evict maxL (sortKeyed now (removeLoopGo m 0 l) ++
          [identity])) ≤ 1 := by
      have := countMac_sublist m (evict_sublist maxL
        (sortKeyed now (removeLoopGo m 0 l) ++ [identity]))
      rw [countMac_append, hs0, countMac_cons, if_pos hm] at this
      simpa [countMac] using this
    have hge := countMac_pos_of_match m
      (mem_of_getLast?_eq_some hevlast) hm
    omega
  · exact hevlast

lemma historyStep_macInv (maxL now : Nat) (identity : Identity)
    (l : List Identity) (hinv : macInv l) :
    macInv (historyStep maxL now identity l) := by
  match hm : identity.mac with
  | none => simpa [historyStep, hm] using hinv
  | some m =>
    by_cases hne : m = ""
    · simpa [historyStep, hm, hne] using hinv
    · rw [historyStep_eq maxL now identity m l hm hne]
      intro m'
      have hsub := countMac_sublist m' (evict_sublist maxL
        (sortKeyed now (removeLoopGo m 0 l) ++ [identity]))
      rw [countMac_append] at hsub
      by_cases hmm : m' = m
      · subst hmm
        rw [historyStep_countMac_sort_zero m' now l (hinv m'),
          countMac_cons, if_pos hm] at hsub
        simpa [countMac] using hsub
      · have hid : countMac m' [identity] = 0 := by
          rw [countMac_cons]
          have : identity.mac ≠ some m' := by
            rw [hm]
            simp
            intro h
            exact hmm h.symm
          simp [this, countMac]
        rw [hid] at hsub
        have hrem : countMac m' (sortKeyed now (removeLoopGo m 0 l)) ≤
            countMac m' l := by
          rw [countMac_perm m' (sortKeyed_perm now (removeLoopGo m 0 l))]
          exact countMac_sublist m' (removeLoopGo_sublist m 0 l)
        have := hinv m'
        omega

/-! ## Claim theorems: latest-connected history -/

/-- C1 (counterexample): starting from the empty history, two
`connected_device` calls with out-of-order connection timestamps (MAC "a" at
time 10, then MAC "b" at time 5) leave `_latest_connected_list` unsorted:
the source sorts *before* appending the new identity, so the appended entry
is not ordered.  This refutes the claim that the history is sorted ascending
after each call for arbitrary, possibly out-of-order timestamps. -/
theorem c1_history_sorted_counterexample :
    ¬ sortedKey 100
      (historyStep 5 100 ⟨some "b", some 5, 0⟩
        (historyStep 5 100 ⟨some "a", some 10, 0⟩ [])) := by
  intro h
  have heq :
      historyStep 5 100 ⟨some "b", some 5, 0⟩
        (historyStep 5 100 ⟨some "a", some 10, 0⟩ []) =
      [⟨some "a", some 10, 0⟩, ⟨some "b", some 5, 0⟩] := by decide
  rw [heq, sortedKey, List.pairwise_cons] at h
  have := h.1 ⟨some "b", some 5, 0⟩ (List.mem_singleton.mpr rfl)
  simp [connected_device_time] at this

/-- C1 (amended): after every `connected_device` call with a truthy MAC, the
history *minus its last element* is sorted ascending by
`connected_device_time` (entries without a datetime timestamp keyed by the
current time); the full history is sorted whenever the recorded identity's
timestamp is at least every timestamp already in the history.  The source
sorts before appending, so only the prefix preceding the appended entry is
unconditionally sorted. -/
theorem c1_history_sorted_amended (maxL now : Nat) (identity : Identity)
    (m : String) (l : List Identity) (hm : identity.mac = some m)
    (hne : m ≠ "") :
    sortedKey now ((historyStep maxL now identity l).dropLast) ∧
    ((∀ e ∈ l, connected_device_time now e ≤ connected_device_time now identity) →
      sortedKey now (historyStep maxL now identity l)) := by
  rw [historyStep_eq maxL now identity m l hm hne]
  constructor
  · exact sorted_dropLast_evict_append now maxL identity _
      (sortKeyed_sorted now (removeLoopGo m 0 l))
  · intro hmax
    apply evict_sorted
    rw [sortedKey, List.pairwise_append]
    refine ⟨sortKeyed_sorted now (removeLoopGo m 0 l), by simp [sortedKey], ?_⟩
    intro a ha b hb
    rw [List.mem_singleton] at hb
    subst hb
    have ha' : a ∈ removeLoopGo m 0 l :=
      ((sortKeyed_perm now (removeLoopGo m 0 l)).mem_iff).mp ha
    exact hmax a ((removeLoopGo_sublist m 0 l).mem ha')

/-- C1 (witness for the amended theorem): concrete instantiation with MAC "c"
recorded at time 7 on a history holding an entry at time 3. -/
theorem c1_history_sorted_witness :
    sortedKey 9
      ((historyStep 4 9 ⟨some "c", some 7, 0⟩ [⟨some "d", some 3, 0⟩]).dropLast) ∧
    sortedKey 9 (historyStep 4 9 ⟨some "c", some 7, 0⟩ [⟨some "d", some 3, 0⟩]) := by
  have h := c1_history_sorted_amended 4 9 ⟨some "c", some 7, 0⟩ "c"
    [⟨some "d", some 3, 0⟩] rfl (by decide)
  refine ⟨h.1, h.2 ?_⟩
  intro e he
  rw [List.mem_singleton] at he
  subst he
  decide

/-- C6: the history length never exceeds the configured maximum after any
sequence of `connected_device` calls starting from the initial empty history,
and the eviction loop removes exactly the oldest entries (a prefix drop). -/
theorem c6_history_bounded (maxL now : Nat) (ids : List Identity) :
    (runHistory maxL now ids).length ≤ maxL ∧
    ∀ (b : Nat) (l : List Identity), evict b l = l.drop (l.length - b) := by
  constructor
  · have haux : ∀ (ids' : List Identity) (l : List Identity),
        l.length ≤ maxL →
        (ids'.foldl (fun l id => historyStep maxL now id l) l).length ≤ maxL := by
      intro ids'
      induction ids' with
      | nil => intro l h; simpa using h
      | cons x xs ih =>
        intro l h
        simp only [List.foldl_cons]
        apply ih
        match hm : x.mac with
        | none => simpa [historyStep, hm] using h
        | some m =>
          by_cases hne : m = ""
          · simpa [historyStep, hm, hne] using h
          · rw [historyStep_eq maxL now x m l hm hne, evict_eq_drop,
              List.length_drop]
            omega
    exact haux ids [] (by simp)
  · exact fun b l => evict_eq_drop b l

/-- C7: for every history satisfying the at-most-one-entry-per-MAC invariant,
(1) every `connected_device` call preserves the invariant, and (2) recording
the same truthy MAC twice (with the configured maximum at least 1, so the
calls complete) leaves exactly one entry for that MAC — the second recorded
identity — at the end of the history, the position its latest timestamp gives
it after the append. -/
theorem c7_unique_mac (maxL now : Nat) (l : List Identity)
    (hinv : macInv l) :
    (∀ identity : Identity, macInv (historyStep maxL now identity l)) ∧
    (∀ (m : String) (id1 id2 : Identity), m ≠ "" → id1.mac = some m →
      id2.mac = some m → 1 ≤ maxL →
      countMac m (historyStep maxL now id2 (historyStep maxL now id1 l)) = 1 ∧
      (historyStep maxL now id2 (historyStep maxL now id1 l)).getLast? =
        some id2) := by
  constructor
  · exact fun identity => historyStep_macInv maxL now identity l hinv
  · intro m id1 id2 hne hm1 hm2 hmax
    have hinv1 : macInv (historyStep maxL now id1 l) :=
      historyStep_macInv maxL now id1 l hinv
    exact historyStep_countMac_self maxL now id2 m
      (historyStep maxL now id1 l) hm2 hne hmax (hinv1 m)

/-- C7 (witness): MAC "a" recorded at time 5, then again at time 7, on the
empty history with maximum 3. -/
theorem c7_unique_mac_witness :
    countMac "a"
      (historyStep 3 10 ⟨some "a", some 7, 1⟩
        (historyStep 3 10 ⟨some "a", some 5, 0⟩ [])) = 1 ∧
    (historyStep 3 10 ⟨some "a", some 7, 1⟩
      (historyStep 3 10 ⟨some "a", some 5, 0⟩ [])).getLast? =
        some ⟨some "a", some 7, 1⟩ :=
  (c7_unique_mac 3 10 [] (fun m => by simp [countMac])).2
    "a" ⟨some "a", some 5, 0⟩ ⟨some "a", some 7, 1⟩ (by decide) rfl rfl
    (by decide)

/-- C10: with the configured maximum 0, every `connected_device` call whose
identity carries a truthy MAC raises: the eviction loop empties the list and
the trailing `self._latest_connected_list[-1]` access is out of bounds
(modelled as `none`); with maximum at least 1, every call is total. -/
theorem c10_max_zero_crash (now : Nat) (identity : Identity)
    (s : List Identity × Option Nat) (m : String)
    (hm : identity.mac = some m) (hne : m ≠ "") :
    connected_device 0 now identity s = none ∧
    ∀ (maxL : Nat) (id2 : Identity) (s2 : List Identity × Option Nat),
      1 ≤ maxL → (connected_device maxL now id2 s2).isSome = true := by
  constructor
  · have hempty : historyStep 0 now identity s.1 = [] := by
      rw [historyStep_eq 0 now identity m s.1 hm hne, evict_eq_drop]
      simp
    simp [connected_device, hm, hne, hempty]
  · intro maxL id2 s2 hmax
    match hm2 : id2.mac with
    | none => simp [connected_device, hm2]
    | some m2 =>
      by_cases hne2 : m2 = ""
      · simp [connected_device, hm2, hne2]
      · have htne : sortKeyed now (removeLoopGo m2 0 s2.1) ++ [id2] ≠ [] := by
          simp
        have hlast := evict_getLast? maxL _ hmax htne
        rw [List.getLast?_concat] at hlast
        simp only [connected_device, hm2, hne2, if_neg,
          historyStep_eq maxL now id2 m2 s2.1 hm2 hne2]
        rw [hlast]
        simp

/-- C10 (witness): MAC "a" at maximum 0 raises; at maximum 1 the same call is
total. -/
theorem c10_max_zero_crash_witness :
    connected_device 0 50 ⟨some "a", some 10, 0⟩ ([], none) = none ∧
    (connected_device 1 50 ⟨some "a", some 10, 0⟩ ([], none)).isSome = true := by
  have h := c10_max_zero_crash 50 ⟨some "a", some 10, 0⟩ ([], none) "a" rfl
    (by decide)
  exact ⟨h.1, h.2 1 ⟨some "a", some 10, 0⟩ ([], none) (by decide)⟩

/-! ## Helper lemmas: reconciliation passes -/

lemma clientsAggregate_aux (l : List (String × ClientRecord)) :
    ∀ (n : Nat) (acc : List Identity),
      l.foldl
        (fun acc kv =>
          if kv.2.state then (acc.1 + 1, acc.2 ++ [kv.2.identity]) else acc)
        (n, acc) =
      (n + l.countP (fun kv => kv.2.state),
       acc ++ (l.filter (fun kv => kv.2.state)).map (fun kv => kv.2.identity)) := by
  induction l with
  | nil => intro n acc; simp
  | cons kv rest ih =>
    intro n acc
    simp only [List.foldl_cons]
    by_cases h : kv.2.state
    · rw [if_pos h, ih]
      simp [List.countP_cons, List.filter_cons, h]
      omega
    · rw [if_neg h, ih]
      simp [List.countP_cons, List.filter_cons, h]

lemma clientsAggregate_spec (l : List (String × ClientRecord)) :
    clientsAggregate l =
      (l.countP (fun kv => kv.2.state),
       (l.filter (fun kv => kv.2.state)).map (fun kv => kv.2.identity)) := by
  rw [clientsAggregate, clientsAggregate_aux]
  simp

lemma aimeshAggregate_aux (l : List (String × NodeRecord)) :
    ∀ (n : Nat) (acc : List NodeIdentity),
      l.foldl
        (fun acc kv =>
          ((if kv.2.identity.connected then acc.1 + 1 else acc.1),
           acc.2 ++ [kv.2.identity]))
        (n, acc) =
      (n + l.countP (fun kv => kv.2.identity.connected),
       acc ++ l.map (fun kv => kv.2.identity)) := by
  induction l with
  | nil => intro n acc; simp
  | cons kv rest ih =>
    intro n acc
    simp only [List.foldl_cons]
    by_cases h : kv.2.identity.connected
    · rw [if_pos h, ih]
      simp [List.countP_cons, h]
      omega
    · rw [if_neg h, ih]
      simp [List.countP_cons, h]

lemma aimeshAggregate_spec (l : List (String × NodeRecord)) :
    aimeshAggregate l =
      (l.countP (fun kv => kv.2.identity.connected),
       l.map (fun kv => kv.2.identity)) := by
  rw [aimeshAggregate, aimeshAggregate_aux]
  simp

lemma updateUnpolledSensors_frame (hasA hasD : Bool) (st : RouterState) :
    (updateUnpolledSensors hasA hasD st).1.clients = st.clients ∧
    (updateUnpolledSensors hasA hasD st).1.aimesh = st.aimesh ∧
    (updateUnpolledSensors hasA hasD st).1.clients_number = st.clients_number ∧
    (updateUnpolledSensors hasA hasD st).1.clients_list = st.clients_list ∧
    (updateUnpolledSensors hasA hasD st).1.aimesh_number = st.aimesh_number ∧
    (updateUnpolledSensors hasA hasD st).1.aimesh_list = st.aimesh_list ∧
    (updateUnpolledSensors hasA hasD st).1.latest_connected =
      st.latest_connected ∧
    (updateUnpolledSensors hasA hasD st).1.latest_connected_list =
      st.latest_connected_list ∧
    (updateUnpolledSensors hasA hasD st).1.connect_error = st.connect_error :=
  ⟨rfl, rfl, rfl, rfl, rfl, rfl, rfl, rfl, rfl⟩

lemma updateExistingClients_keys (ch mx now : Nat) :
    ∀ (cl : List (String × ClientRecord)) (snap : List (String × ClientInfo))
      (hist : List Identity × Option Nat)
      (out : List (String × ClientRecord)) (snapF : List (String × ClientInfo))
      (histF : List Identity × Option Nat),
      updateExistingClients ch mx now cl snap hist = some (out, snapF, histF) →
      keysOf out = keysOf cl := by
  intro cl
  induction cl with
  | nil =>
    intro snap hist out snapF histF h
    simp only [updateExistingClients, Option.some.injEq, Prod.mk.injEq] at h
    rw [← h.1]
  | cons p rest ih =>
    intro snap hist out snapF histF h
    obtain ⟨mac, rec⟩ := p
    simp only [updateExistingClients] at h
    split at h
    · exact absurd h (by simp)
    · split at h
      · exact absurd h (by simp)
      · rename_i hist' hh out' snapF' histF' hrec
        simp only [Option.some.injEq, Prod.mk.injEq] at h
        obtain ⟨h1, _, _⟩ := h
        rw [← h1]
        simp only [keysOf, List.map_cons]
        rw [show List.map Prod.fst out' = keysOf out' from rfl,
          ih _ _ _ _ _ hrec]
        rfl

lemma update_devices_ok_inv (td mb ha hd : Bool) (ch mx now : Nat)
    (api : List (String × ClientInfo)) (st st' : RouterState) (out : DevOut)
    (h : update_devices td mb ha hd ch mx now (.ok api) st = some (st', out)) :
    ∃ (updated : List (String × ClientRecord))
      (remaining : List (String × ClientInfo))
      (hist1 : List Identity × Option Nat)
      (newRecs : List (String × ClientRecord))
      (hist2 : List Identity × Option Nat),
      updateExistingClients ch mx now st.clients
          (if mb then api.filter (fun kv => kv.2.connection == some true)
           else api)
          (st.latest_connected_list, st.latest_connected) =
        some (updated, remaining, hist1) ∧
      addNewClients ch mx now remaining hist1 = some (newRecs, hist2) ∧
      st'.clients = updated ++ newRecs ∧
      st'.clients_number = (clientsAggregate (updated ++ newRecs)).1 ∧
      st'.clients_list = (clientsAggregate (updated ++ newRecs)).2 ∧
      st'.connect_error = false ∧
      out.recoveryLogged = st.connect_error := by
  simp only [update_devices] at h
  split at h
  · exact absurd h (by simp)
  · split at h
    · exact absurd h (by simp)
    · rename_i x1 updated remaining hist1 hex x2 newRecs hist2 hadd
      simp only [Option.some.injEq, Prod.mk.injEq] at h
      obtain ⟨h1, h2⟩ := h
      refine ⟨updated, remaining, hist1, newRecs, hist2, hex, hadd, ?_, ?_, ?_,
        ?_, ?_⟩
      · rw [← h1]; rfl
      · rw [← h1]; rfl
      · rw [← h1]; rfl
      · rw [← h1]; rfl
      · rw [← h2]

/-! ## Claim theorems: reconciliation passes -/

/-- C3: when the snapshot fetch raises `UpdateFailed`, both reconciliation
passes return early: the client map, the mesh-node map, the latest-connected
history, and every aggregate and published (handler) value are exactly as
before the pass, and no update notification is dispatched or refresh
requested.  Only the connect-error flag is touched. -/
theorem c3_fetch_failure_preserves_state (td mb ha hd : Bool)
    (ch mx now : Nat) (e e2 : Unit) (st : RouterState) :
    (∃ (st2 : RouterState) (o : DevOut),
      update_devices td mb ha hd ch mx now (.error e) st = some (st2, o) ∧
      st2.clients = st.clients ∧ st2.aimesh = st.aimesh ∧
      st2.latest_connected_list = st.latest_connected_list ∧
      st2.latest_connected = st.latest_connected ∧
      st2.clients_number = st.clients_number ∧
      st2.clients_list = st.clients_list ∧
      st2.aimesh_number = st.aimesh_number ∧
      st2.aimesh_list = st.aimesh_list ∧
      st2.handler = st.handler ∧
      o.dispatchedUpdate = false ∧ o.dispatchedNew = false ∧
      o.aimeshRefreshed = false ∧ o.devicesRefreshed = false) ∧
    ((update_nodes (.error e2) st).1.clients = st.clients ∧
      (update_nodes (.error e2) st).1.aimesh = st.aimesh ∧
      (update_nodes (.error e2) st).1.latest_connected_list =
        st.latest_connected_list ∧
      (update_nodes (.error e2) st).1.latest_connected = st.latest_connected ∧
      (update_nodes (.error e2) st).1.clients_number = st.clients_number ∧
      (update_nodes (.error e2) st).1.clients_list = st.clients_list ∧
      (update_nodes (.error e2) st).1.aimesh_number = st.aimesh_number ∧
      (update_nodes (.error e2) st).1.aimesh_list = st.aimesh_list ∧
      (update_nodes (.error e2) st).1.handler = st.handler ∧
      (update_nodes (.error e2) st).2.dispatchedUpdate = false ∧
      (update_nodes (.error e2) st).2.dispatchedNew = false) :=
  ⟨⟨{ st with connect_error := true }, _, rfl, rfl, rfl, rfl, rfl, rfl, rfl,
    rfl, rfl, rfl, rfl, rfl, rfl, rfl⟩,
   rfl, rfl, rfl, rfl, rfl, rfl, rfl, rfl, rfl, rfl, rfl⟩

/-- C2: with `trackDevices = false` the source only logs
"Device tracking is disabled" and then proceeds with the full pass anyway —
the missing early return contradicts that log line and the option's meaning.
At the concrete failing input (empty prior state, snapshot with one connected
client "aa"), the pass run with tracking disabled still adds the client to
the map, reports it newly added, dispatches the new-device signal, and raises
the connected-clients aggregate to 1, where the claim requires all of them
unchanged. -/
theorem c2_track_devices_disabled_still_tracks :
    emptyRouterState.clients = [] ∧ emptyRouterState.clients_number = 0 ∧
    (update_devices false false false false 0 5 10
        (.ok [("aa", ⟨none, true, 1⟩)]) emptyRouterState).map
      (fun r => (r.1.clients.length, r.1.clients_number,
        r.2.newClientIdentities.length, r.2.dispatchedNew)) =
      some (1, 1, 1, true) :=
  ⟨rfl, rfl, by decide⟩

/-- C4 (counterexample): a held mesh-node map with one disconnected node and
an empty snapshot: after the pass the recomputed node count is 0, yet the
recomputed node list still holds that node's identity — the `append` sits
outside the connected check in the source — so the list is not the list of
connected records' identities required by the claim. -/
theorem c4_aggregates_counterexample :
    ((update_nodes (.ok [])
        { emptyRouterState with
            aimesh := [("n1", ⟨⟨some "n1", false, 0⟩⟩)] }).1.aimesh_number =
      0) ∧
    ((update_nodes (.ok [])
        { emptyRouterState with
            aimesh := [("n1", ⟨⟨some "n1", false, 0⟩⟩)] }).1.aimesh_list =
      [⟨some "n1", false, 0⟩]) ∧
    ((update_nodes (.ok [])
        { emptyRouterState with
            aimesh := [("n1", ⟨⟨some "n1", false, 0⟩⟩)] }).1.aimesh_list ≠
      ((update_nodes (.ok [])
          { emptyRouterState with
              aimesh := [("n1", ⟨⟨some "n1", false, 0⟩⟩)] }).1.aimesh.filter
          (fun kv => kv.2.identity.connected)).map (fun kv => kv.2.identity)) := by
  refine ⟨rfl, rfl, ?_⟩
  decide

/-- C4 (amended): after a completed client pass the client count equals the
number of client records whose connected flag is true and the client list is
their identities in map order; after a node pass the node count equals the
number of connected node records, but the node list holds the identities of
*all* node records in map order (connected or not). -/
theorem c4_aggregates_amended (td mb ha hd : Bool) (ch mx now : Nat)
    (api : List (String × ClientInfo)) (st st' : RouterState) (out : DevOut)
    (h : update_devices td mb ha hd ch mx now (.ok api) st = some (st', out))
    (nsnap : List (String × NodeInfo)) (st2 : RouterState) :
    st'.clients_number = st'.clients.countP (fun kv => kv.2.state) ∧
    st'.clients_list =
      (st'.clients.filter (fun kv => kv.2.state)).map
        (fun kv => kv.2.identity) ∧
    (update_nodes (.ok nsnap) st2).1.aimesh_number =
      (update_nodes (.ok nsnap) st2).1.aimesh.countP
        (fun kv => kv.2.identity.connected) ∧
    (update_nodes (.ok nsnap) st2).1.aimesh_list =
      (update_nodes (.ok nsnap) st2).1.aimesh.map (fun kv => kv.2.identity) := by
  obtain ⟨updated, remaining, hist1, newRecs, hist2, hex, hadd, hcl, hnum,
    hlist, _, _⟩ := update_devices_ok_inv td mb ha hd ch mx now api st st' out h
  refine ⟨?_, ?_, ?_, ?_⟩
  · rw [hnum, hcl, clientsAggregate_spec]
  · rw [hlist, hcl, clientsAggregate_spec]
  · simp only [update_nodes]
    rw [aimeshAggregate_spec]
  · simp only [update_nodes]
    rw [aimeshAggregate_spec]

/-- C4 (witness): empty snapshot against the empty state for both passes. -/
theorem c4_aggregates_amended_witness :
    emptyRouterState.clients_number =
      emptyRouterState.clients.countP (fun kv => kv.2.state) ∧
    emptyRouterState.clients_list =
      (emptyRouterState.clients.filter (fun kv => kv.2.state)).map
        (fun kv => kv.2.identity) ∧
    (update_nodes (.ok []) emptyRouterState).1.aimesh_number =
      (update_nodes (.ok []) emptyRouterState).1.aimesh.countP
        (fun kv => kv.2.identity.connected) ∧
    (update_nodes (.ok []) emptyRouterState).1.aimesh_list =
      (update_nodes (.ok []) emptyRouterState).1.aimesh.map
        (fun kv => kv.2.identity) :=
  c4_aggregates_amended false false false false 0 1 0 [] emptyRouterState
    emptyRouterState ⟨false, false, [], true, false, false, false⟩ (by decide)
    [] emptyRouterState

lemma update_clients_cond_iff (h : ARSensorHandler) (n : Nat)
    (l : List Identity) (lc : Option Nat) (lcl : List Identity) :
    (h.clients_number = n ∧ h.clients_list = l ∧ h.latest_connected = lc ∧
      h.latest_connected_list = lcl) ↔ (n, l, lc, lcl) = pubDevTuple h := by
  constructor
  · rintro ⟨h1, h2, h3, h4⟩
    simp [pubDevTuple, h1, h2, h3, h4]
  · intro hh
    simp only [pubDevTuple, Prod.mk.injEq] at hh
    exact ⟨hh.1.symm, hh.2.1.symm, hh.2.2.1.symm, hh.2.2.2.symm⟩

lemma update_clients_spec (h : ARSensorHandler) (n : Nat) (l : List Identity)
    (lc : Option Nat) (lcl : List Identity) :
    h.update_clients n l lc lcl =
      if (n, l, lc, lcl) = pubDevTuple h then (false, h)
      else
        (true,
         { h with
            clients_number := n, clients_list := l
            latest_connected := lc, latest_connected_list := lcl }) := by
  rw [ARSensorHandler.update_clients]
  by_cases he : (n, l, lc, lcl) = pubDevTuple h
  · rw [if_pos ((update_clients_cond_iff h n l lc lcl).mpr he), if_pos he]
  · rw [if_neg (fun hc => he ((update_clients_cond_iff h n l lc lcl).mp hc)),
      if_neg he]

lemma update_aimesh_cond_iff (h : ARSensorHandler) (n : Nat)
    (nl : List NodeIdentity) :
    (h.aimesh_number = n ∧ h.aimesh_list = nl) ↔ (n, nl) = pubAimTuple h := by
  constructor
  · rintro ⟨h1, h2⟩
    simp [pubAimTuple, h1, h2]
  · intro hh
    simp only [pubAimTuple, Prod.mk.injEq] at hh
    exact ⟨hh.1.symm, hh.2.symm⟩

lemma update_aimesh_spec (h : ARSensorHandler) (n : Nat)
    (nl : List NodeIdentity) :
    h.update_aimesh n nl =
      if (n, nl) = pubAimTuple h then (false, h)
      else (true, { h with aimesh_number := n, aimesh_list := nl }) := by
  rw [ARSensorHandler.update_aimesh]
  by_cases he : (n, nl) = pubAimTuple h
  · rw [if_pos ((update_aimesh_cond_iff h n nl).mpr he), if_pos he]
  · rw [if_neg (fun hc => he ((update_aimesh_cond_iff h n nl).mp hc)),
      if_neg he]

lemma update_aimesh_pubDev (h : ARSensorHandler) (n : Nat)
    (nl : List NodeIdentity) :
    pubDevTuple (h.update_aimesh n nl).2 = pubDevTuple h := by
  rw [update_aimesh_spec]
  split <;> rfl

lemma unpolled_r1_pubDev (hasA : Bool) (st : RouterState) :
    pubDevTuple
      (if hasA then
        st.handler.update_aimesh st.aimesh_number st.aimesh_list
       else (false, st.handler)).2 = pubDevTuple st.handler := by
  by_cases hA : hasA
  · simp only [hA, if_true]
    exact update_aimesh_pubDev st.handler st.aimesh_number st.aimesh_list
  · simp [hA]

/-- C5: an aggregate tuple is published (its unpolled coordinator refreshed)
only when it differs — by structural (value) equality — from the previously
published tuple stored in the sensor handler; on equality the handler reports
no change and stores nothing, and on inequality it stores exactly the new
tuple.  Clients and AiMesh tuples are compared and published independently. -/
theorem c5_publish_on_change :
    (∀ (h : ARSensorHandler) (n : Nat) (l : List Identity) (lc : Option Nat)
        (lcl : List Identity),
      (h.update_clients n l lc lcl).1 = true ↔ (n, l, lc, lcl) ≠ pubDevTuple h) ∧
    (∀ (h : ARSensorHandler) (n : Nat) (l : List Identity) (lc : Option Nat)
        (lcl : List Identity),
      (h.update_clients n l lc lcl).1 = false →
        (h.update_clients n l lc lcl).2 = h) ∧
    (∀ (h : ARSensorHandler) (n : Nat) (l : List Identity) (lc : Option Nat)
        (lcl : List Identity),
      (h.update_clients n l lc lcl).1 = true →
        pubDevTuple (h.update_clients n l lc lcl).2 = (n, l, lc, lcl)) ∧
    (∀ (h : ARSensorHandler) (n : Nat) (nl : List NodeIdentity),
      (h.update_aimesh n nl).1 = true ↔ (n, nl) ≠ pubAimTuple h) ∧
    (∀ (h : ARSensorHandler) (n : Nat) (nl : List NodeIdentity),
      (h.update_aimesh n nl).1 = false → (h.update_aimesh n nl).2 = h) ∧
    (∀ (h : ARSensorHandler) (n : Nat) (nl : List NodeIdentity),
      (h.update_aimesh n nl).1 = true →
        pubAimTuple (h.update_aimesh n nl).2 = (n, nl)) ∧
    (∀ (st : RouterState) (hasA hasD : Bool),
      (updateUnpolledSensors hasA hasD st).2.2 = true ↔
        hasD = true ∧ devTuple st ≠ pubDevTuple st.handler) ∧
    (∀ (st : RouterState) (hasA hasD : Bool),
      (updateUnpolledSensors hasA hasD st).2.1 = true ↔
        hasA = true ∧ aimTuple st ≠ pubAimTuple st.handler) := by
  have hc1 : ∀ (h : ARSensorHandler) (n : Nat) (l : List Identity)
      (lc : Option Nat) (lcl : List Identity),
      (h.update_clients n l lc lcl).1 = true ↔
        (n, l, lc, lcl) ≠ pubDevTuple h := by
    intro h n l lc lcl
    rw [update_clients_spec]
    split
    · rename_i he
      simp [he]
    · rename_i he
      simp [he]
  have ha1 : ∀ (h : ARSensorHandler) (n : Nat) (nl : List NodeIdentity),
      (h.update_aimesh n nl).1 = true ↔ (n, nl) ≠ pubAimTuple h := by
    intro h n nl
    rw [update_aimesh_spec]
    split
    · rename_i he
      simp [he]
    · rename_i he
      simp [he]
  refine ⟨hc1, ?_, ?_, ha1, ?_, ?_, ?_, ?_⟩
  · intro h n l lc lcl
    rw [update_clients_spec]
    split
    · intro _; rfl
    · intro hfalse; simp at hfalse
  · intro h n l lc lcl
    rw [update_clients_spec]
    split
    · intro htrue; simp at htrue
    · intro _
      simp [pubDevTuple]
  · intro h n nl
    rw [update_aimesh_spec]
    split
    · intro _; rfl
    · intro hfalse; simp at hfalse
  · intro h n nl
    rw [update_aimesh_spec]
    split
    · intro htrue; simp at htrue
    · intro _
      simp [pubAimTuple]
  · intro st hasA hasD
    by_cases hD : hasD
    · simp only [updateUnpolledSensors, hD, if_true]
      rw [hc1]
      rw [unpolled_r1_pubDev hasA st]
      simp [devTuple]
    · simp [updateUnpolledSensors, hD]
  · intro st hasA hasD
    by_cases hA : hasA
    · simp only [updateUnpolledSensors, hA, if_true]
      rw [ha1]
      simp [aimTuple]
    · simp [updateUnpolledSensors, hA]

/-- C5 (witness): a state whose client count (1) differs from the published
count (0) triggers a devices refresh; the same state with no devices
coordinator does not. -/
theorem c5_publish_on_change_witness :
    (updateUnpolledSensors false true
      { emptyRouterState with clients_number := 1 }).2.2 = true :=
  (c5_publish_on_change.2.2.2.2.2.2.1
    { emptyRouterState with clients_number := 1 } false true).mpr
    ⟨rfl, by decide⟩

lemma failStep_eq (k : PassKind) (st : RouterState) :
    failStep k st = ({ st with connect_error := true }, !st.connect_error) := by
  cases k <;> rfl

lemma runFailing_zero (ks : List PassKind) :
    ∀ st : RouterState, st.connect_error = true → (runFailing ks st).2 = 0 := by
  induction ks with
  | nil => intro st _; rfl
  | cons k ks ih =>
    intro st h
    simp only [runFailing, failStep_eq, h]
    rw [ih { st with connect_error := true } rfl]
    simp

/-- C8 (counterexample): a successful node-update pass after a failure streak
clears nothing: with the connect-error flag set, `update_nodes` on a
successful fetch leaves the flag set (its output has no recovery notice —
the source has no "Reconnected" branch there), refuting the claim that the
recovery notice fires and the flag clears on the first success for the
node-update pass as well. -/
theorem c8_node_success_no_recovery_counterexample :
    (update_nodes (.ok [])
      { emptyRouterState with connect_error := true }).1.connect_error =
      true := rfl

/-- C8 (amended): over any consecutive streak of failing passes (device or
node, in any order) the connect error is logged at most once — the flag set
by the first failure suppresses the rest; a successful client-update pass
logs the recovery notice exactly when the flag was set and always clears the
flag; a successful node-update pass logs nothing and leaves the flag
unchanged (only the client-update pass clears it). -/
theorem c8_error_streak_amended (ks : List PassKind) (st : RouterState) :
    (runFailing ks st).2 ≤ 1 ∧
    (∀ (td mb ha hd : Bool) (ch mx now : Nat)
        (api : List (String × ClientInfo)) (st2 st' : RouterState)
        (out : DevOut),
      update_devices td mb ha hd ch mx now (.ok api) st2 = some (st', out) →
      out.recoveryLogged = st2.connect_error ∧ st'.connect_error = false) ∧
    (∀ (snap : List (String × NodeInfo)) (st3 : RouterState),
      (update_nodes (.ok snap) st3).1.connect_error = st3.connect_error ∧
      (update_nodes (.ok snap) st3).2.errorLogged = false) := by
  refine ⟨?_, ?_, ?_⟩
  · cases ks with
    | nil => simp [runFailing]
    | cons k ks =>
      simp only [runFailing, failStep_eq]
      rw [runFailing_zero ks { st with connect_error := true } rfl]
      cases hce : st.connect_error <;> simp
  · intro td mb ha hd ch mx now api st2 st' out h
    obtain ⟨_, _, _, _, _, _, _, _, _, _, hce, hrec⟩ :=
      update_devices_ok_inv td mb ha hd ch mx now api st2 st' out h
    exact ⟨hrec, hce⟩
  · intro snap st3
    exact ⟨rfl, rfl⟩

/-- C8 (witness): a device-then-node failure streak logs once; a successful
client pass from the flagged state reports the recovery and clears the flag. -/
theorem c8_error_streak_witness :
    (runFailing [PassKind.device, PassKind.node] emptyRouterState).2 ≤ 1 ∧
    ((⟨false, true, [], true, false, false, false⟩ : DevOut).recoveryLogged =
        ({ emptyRouterState with connect_error := true
          } : RouterState).connect_error ∧
      emptyRouterState.connect_error = false) :=
  ⟨(c8_error_streak_amended [PassKind.device, PassKind.node]
      emptyRouterState).1,
   (c8_error_streak_amended [] emptyRouterState).2.1 false false false false
     0 1 0 [] { emptyRouterState with connect_error := true } emptyRouterState
     ⟨false, true, [], true, false, false, false⟩ (by decide)⟩

lemma popKey_not_mem_keys (m : String) :
    ∀ l : List (String × ClientRecord), (keysOf l).Nodup →
      m ∉ keysOf (popKey m l).2 := by
  intro l
  induction l with
  | nil => intro _; simp [popKey, keysOf]
  | cons p rest ih =>
    intro hnd
    obtain ⟨k, v⟩ := p
    simp only [keysOf, List.map_cons, List.nodup_cons] at hnd
    simp only [popKey]
    split
    · rename_i hk
      subst hk
      exact fun hmem => hnd.1 hmem
    · rename_i hk
      simp only [keysOf, List.map_cons, List.mem_cons]
      rintro (rfl | hmem)
      · exact hk rfl
      · exact ih hnd.2 hmem

/-- C9: every MAC present in the client map before a completed
`update_devices` pass (successful or failed fetch) is still present after it
— the reconciler never deletes a client record; and the out-of-band
`remove_trackers` operation does remove a popped MAC from a well-keyed map. -/
theorem c9_reconciler_never_deletes (td mb ha hd : Bool) (ch mx now : Nat)
    (fetch : Except Unit (List (String × ClientInfo))) (st st' : RouterState)
    (out : DevOut) (m : String) (hm : m ∈ keysOf st.clients)
    (h : update_devices td mb ha hd ch mx now fetch st = some (st', out)) :
    m ∈ keysOf st'.clients ∧
    ∀ l : List (String × ClientRecord), (keysOf l).Nodup →
      m ∉ keysOf (remove_trackers [m] l) := by
  constructor
  · cases fetch with
    | error e =>
      simp only [update_devices, Option.some.injEq, Prod.mk.injEq] at h
      rw [← h.1]
      exact hm
    | ok api =>
      obtain ⟨updated, remaining, hist1, newRecs, hist2, hex, _, hcl, _, _, _,
        _⟩ := update_devices_ok_inv td mb ha hd ch mx now api st st' out h
      rw [hcl]
      have hk := updateExistingClients_keys ch mx now st.clients _ _ updated
        remaining hist1 hex
      simp only [keysOf, List.map_append]
      rw [show List.map Prod.fst updated = keysOf updated from rfl, hk]
      exact List.mem_append_left _ hm
  · intro l hnd
    have hrt : remove_trackers [m] l = (popKey m l).2 := rfl
    rw [hrt]
    exact popKey_not_mem_keys m l hnd

/-- C9 (witness): MAC "aa" held in the map survives a pass with an empty
snapshot, and `remove_trackers` does remove it. -/
theorem c9_reconciler_never_deletes_witness :
    "aa" ∈ keysOf ({ emptyRouterState with
      clients := [("aa", ⟨false, 0, ⟨some "aa", none, 0⟩⟩)]
      } : RouterState).clients :=
  (c9_reconciler_never_deletes false false false false 5 1 3 (.ok [])
    { emptyRouterState with
        clients := [("aa", ⟨false, 0, ⟨some "aa", none, 0⟩⟩)] }
    { emptyRouterState with
        clients := [("aa", ⟨false, 0, ⟨some "aa", none, 0⟩⟩)] }
    ⟨false, false, [], true, false, false, false⟩ "aa" (by decide)
    (by decide)).1
